import Mathlib

/-!
Shallow embedding of the browser audio playlist player
(`src/src/components/AudioPlayer.tsx` and `src/unnamed/part_000`).

The repository bundles three React components with their own state and
handlers:

* `AudioPlayer` (first document of `AudioPlayer.tsx`): state
  `audioFiles, currentTrack, isPlaying, currentTime, duration, volume,
  isMuted, currentIndex` plus the media element; handlers `playTrack`,
  `togglePlayPause`, `playNext`, `playPrevious`, `handleSeek`,
  `handleVolumeChange`, `toggleMute`, `deleteTrack`, `handleFileUpload`
  and the media event callbacks (`timeupdate`, `loadedmetadata`, `ended`).
* `PlaylistManager` (second document of `AudioPlayer.tsx`): state
  `tracks, currentTrack, isPlaying`; handlers `handleFileUpload`,
  `deleteTrack`, `playTrack`, `handleTrackEnd`, plus the persistence
  adapters `saveTracksToStorage` / `loadTracksFromStorage`.
* `App` (first document of `part_000`): state like `AudioPlayer` without
  an index; handlers `handlePlay`, `handleNext`, `handlePrevious`,
  `handleVolumeChange`, `toggleMute`, `deleteTrack`, `handleFileUpload`.

Times, durations and volumes are modelled as rationals; the media
element is modelled by the fields `audioVolume` (its `volume` property)
and `loads` (a counter of how many times a new media resource was
attached, i.e. how often `currentTrack` was switched to a different
track / `audio.load()` was issued).  Identifier generation
(`Date.now() + Math.random()`) and object-URL creation
(`URL.createObjectURL`) are nondeterministic platform primitives and are
passed in as explicit generator functions.
-/

/-- A track of the `AudioPlayer` / `App` components
(`interface AudioFile` / `interface Track`): id, display name,
object URL and duration in seconds. -/
structure AudioFile where
  id : String
  name : String
  url : String
  duration : Rat
deriving DecidableEq, Repr

/-- The `AudioPlayer` component state: the React `useState` fields
together with the modelled media-element fields `audioVolume` and
`loads`. -/
structure PlayerState where
  audioFiles : List AudioFile
  currentTrack : Option AudioFile
  isPlaying : Bool
  currentTime : Rat
  duration : Rat
  volume : Rat
  isMuted : Bool
  currentIndex : Nat
  audioVolume : Rat
  loads : Nat
deriving DecidableEq, Repr

/-- The id of the current track, `currentTrack?.id`. -/
def currentTrackId (s : PlayerState) : Option String :=
  s.currentTrack.map (fun t => t.id)

/-- Initial component state: all `useState` initial values; a fresh
media element has volume 1 and no resource attached. -/
def initState : PlayerState :=
  { audioFiles := [], currentTrack := none, isPlaying := false,
    currentTime := 0, duration := 0, volume := 1, isMuted := false,
    currentIndex := 0, audioVolume := 1, loads := 0 }

/-- `togglePlayPause`: no-op without a current track (the guard
`if (!audio || !currentTrack) return`), otherwise pauses/plays and flips
`isPlaying`. -/
def togglePlayPause (s : PlayerState) : PlayerState :=
  match s.currentTrack with
  | none => s
  | some _ => { s with isPlaying := !s.isPlaying }

/-- `playTrack(track, index)`: if the clicked track is already current
(`currentTrack?.id === track.id`) it toggles play/pause; otherwise it
sets the current track and index, starts playing, and the media element
loads the new resource. -/
def playTrack (t : AudioFile) (i : Nat) (s : PlayerState) : PlayerState :=
  if currentTrackId s = some t.id then
    togglePlayPause s
  else
    { s with currentTrack := some t, currentIndex := i, isPlaying := true,
             loads := s.loads + 1 }

/-- `playNext`: no-op on an empty list, otherwise advances to
`(currentIndex + 1) % audioFiles.length` and plays that track. -/
def playNext (s : PlayerState) : PlayerState :=
  if h : s.audioFiles.length = 0 then s
  else
    let n := (s.currentIndex + 1) % s.audioFiles.length
    { s with
      currentTrack := some (s.audioFiles.get ⟨n, Nat.mod_lt _ (Nat.pos_of_ne_zero h)⟩),
      currentIndex := n, isPlaying := true, loads := s.loads + 1 }

/-- `playPrevious`: no-op on an empty list, otherwise steps back to the
previous index, wrapping to the last index from index 0. -/
def playPrevious (s : PlayerState) : PlayerState :=
  if s.audioFiles.length = 0 then s
  else
    let n := if s.currentIndex = 0 then s.audioFiles.length - 1 else s.currentIndex - 1
    { s with
      currentTrack := s.audioFiles.get? n,
      currentIndex := n, isPlaying := true, loads := s.loads + 1 }

/-- The `ended` media event handler: `setIsPlaying(false)` then
`playNext()`. -/
def handleEnded (s : PlayerState) : PlayerState :=
  playNext { s with isPlaying := false }

/-- The `timeupdate` media event handler: stores the media element
field `currentTime` (delivered by the bridge as the argument). -/
def handleTimeUpdate (t : Rat) (s : PlayerState) : PlayerState :=
  { s with currentTime := t }

/-- The `loadedmetadata` media event handler: stores the media element
field `duration`. -/
def handleLoadedMetadata (d : Rat) (s : PlayerState) : PlayerState :=
  { s with duration := d }

/-- `handleSeek`: the slider value is a percentage; the new time is
`value / 100 * duration`, written to the element and the state. -/
def handleSeek (v : Rat) (s : PlayerState) : PlayerState :=
  { s with currentTime := v / 100 * s.duration }

/-- `handleVolumeChange`: the slider value is divided by 100, stored,
forwarded to the media element, and `isMuted` is set exactly when the
new volume equals 0.  No clamping is performed. -/
def handleVolumeChange (v : Rat) (s : PlayerState) : PlayerState :=
  { s with volume := v / 100, audioVolume := v / 100,
           isMuted := decide (v / 100 = 0) }

/-- `toggleMute`: muting writes 0 to the media element and remembers the
stored volume; unmuting writes the stored volume back.  The stored
`volume` field is never changed. -/
def toggleMute (s : PlayerState) : PlayerState :=
  if s.isMuted then
    { s with audioVolume := s.volume, isMuted := false }
  else
    { s with audioVolume := 0, isMuted := true }

/-- `deleteTrack(trackId)`: filters the track out of the list; if the
deleted track is current, clears `currentTrack` and stops playing.
`currentTime`, `volume` and `isMuted` are not touched. -/
def deleteTrack (d : String) (s : PlayerState) : PlayerState :=
  let files := s.audioFiles.filter (fun f => f.id != d)
  if currentTrackId s = some d then
    { s with audioFiles := files, currentTrack := none, isPlaying := false }
  else
    { s with audioFiles := files }

/-- An uploaded file as seen by the handlers: original filename,
declared MIME type, the object URL the platform would mint for it, the
duration the metadata probe reports, the raw content and byte size. -/
structure UFile where
  name : String
  ftype : String
  furl : String
  fdur : Rat
  content : String
  size : Nat
deriving DecidableEq, Repr

/-- Claim Character-level string prefix test (the semantics of
`String.prototype.startsWith`). -/
def charsStartWith : List Char → List Char → Bool
  | [], _ => true
  | _ :: _, [] => false
  | p :: ps, c :: cs => p == c && charsStartWith ps cs

/-- The upload filter used by every handler in the repository:
`file.type.startsWith` with the `audio/` marker. -/
def isAudioFile (f : UFile) : Bool :=
  charsStartWith "audio/".data f.ftype.data

/-- The track built by the `AudioPlayer` upload handler: the name is the
unmodified `file.name`. -/
def apMkTrack (newId : String) (f : UFile) : AudioFile :=
  { id := newId, name := f.name, url := f.furl, duration := f.fdur }

/-- The tracks appended by the `AudioPlayer` `handleFileUpload` once
the `loadedmetadata` probe of every accepted file has fired: one track per
file whose type starts with `audio/`, ids drawn from the generator. -/
def apNewTracksFrom (idGen : Nat → String) (i : Nat) : List UFile → List AudioFile
  | [] => []
  | f :: fs =>
    if isAudioFile f then
      apMkTrack (idGen i) f :: apNewTracksFrom idGen (i + 1) fs
    else
      apNewTracksFrom idGen (i + 1) fs

/-- The net effect of the `AudioPlayer` `handleFileUpload` on the track
list: each accepted file is appended (`setAudioFiles(prev => ...)`). -/
def apHandleFileUpload (idGen : Nat → String) (files : List UFile)
    (tracks : List AudioFile) : List AudioFile :=
  tracks ++ apNewTracksFrom idGen 0 files

/-- One step of the `AudioPlayer` component: a user command or a bridge
notification.  `upload` carries the tracks the upload handler appends
(ids and URLs already minted by the platform). -/
inductive Event where
  | upload (ts : List AudioFile)
  | select (t : AudioFile) (i : Nat)
  | toggle
  | next
  | prev
  | ended
  | seek (v : Rat)
  | timeupdate (t : Rat)
  | metadata (d : Rat)
  | setVol (v : Rat)
  | mute
  | delete (d : String)
deriving DecidableEq, Repr

/-- The transition function: dispatches each event to its handler. -/
def step (e : Event) (s : PlayerState) : PlayerState :=
  match e with
  | Event.upload ts => { s with audioFiles := s.audioFiles ++ ts }
  | Event.select t i => playTrack t i s
  | Event.toggle => togglePlayPause s
  | Event.next => playNext s
  | Event.prev => playPrevious s
  | Event.ended => handleEnded s
  | Event.seek v => handleSeek v s
  | Event.timeupdate t => handleTimeUpdate t s
  | Event.metadata d => handleLoadedMetadata d s
  | Event.setVol v => handleVolumeChange v s
  | Event.mute => toggleMute s
  | Event.delete d => deleteTrack d s

/-- Run a list of events from a state. -/
def run (es : List Event) (s : PlayerState) : PlayerState :=
  es.foldl (fun s e => step e s) s

/-- A state is reachable when some event sequence leads to it from the
initial state. -/
def Reachable (s : PlayerState) : Prop :=
  ∃ es : List Event, run es initState = s

/-!
### The `PlaylistManager` component and its persistence adapter
-/

/-- A `PlaylistManager` track (`interface Track` of the second document
of `AudioPlayer.tsx`): it additionally holds the `File` itself (modelled
by its raw content string) and the byte size; `duration` is optional and
the upload path never sets it. -/
structure PMTrack where
  id : String
  name : String
  fileData : String
  url : String
  duration : Option Rat
  size : Nat
deriving DecidableEq, Repr

/-- A serialized playlist entry as written to `localStorage`:
`{id, name, url (a base64 data URL of the file bytes), duration, size}`. -/
structure StoredTrack where
  id : String
  name : String
  url : String
  duration : Option Rat
  size : Nat
deriving DecidableEq, Repr

/-- The fixed data-URL marker `FileReader.readAsDataURL` produces for
the stored audio bytes. -/
def dataUrlTag : List Char := "data:audio/mpeg;base64,".data

/-- `FileReader.readAsDataURL` on the file of the track: the bytes behind a
data-URL marker. -/
def encodeDataUrl (d : String) : String :=
  String.mk (dataUrlTag ++ d.data)

/-- `fetch(url)` + `.blob()` on a stored URL: recovers the bytes when
the URL is a well-formed data URL, fails otherwise. -/
def decodeDataUrl (u : String) : Option String :=
  if u.data.take dataUrlTag.length = dataUrlTag then
    some (String.mk (u.data.drop dataUrlTag.length))
  else
    none

/-- `saveTracksToStorage`: each track is serialized with its file
content converted to a data URL; all other persisted fields are copied
verbatim, in list order. -/
def saveTracksToStorage (ts : List PMTrack) : List StoredTrack :=
  ts.map (fun t =>
    { id := t.id, name := t.name, url := encodeDataUrl t.fileData,
      duration := t.duration, size := t.size })

/-- The track `loadTracksFromStorage` rebuilds from one stored entry:
the stored fields are spread back, the file is rematerialized from the
decoded bytes and a fresh object URL replaces the stored one. -/
def restoreTrack (freshUrl : String) (d : String) (st : StoredTrack) : PMTrack :=
  { id := st.id, name := st.name, fileData := d, url := freshUrl,
    duration := st.duration, size := st.size }

/-- `loadTracksFromStorage`, with the fresh-object-URL generator made
explicit: entries are decoded in order; an entry whose URL fails to
decode is skipped with a warning and does not abort the rest. -/
def loadTracksFrom (urlGen : Nat → String) (i : Nat) :
    List StoredTrack → List PMTrack
  | [] => []
  | st :: rest =>
    match decodeDataUrl st.url with
    | some d => restoreTrack (urlGen i) d st :: loadTracksFrom urlGen (i + 1) rest
    | none => loadTracksFrom urlGen (i + 1) rest

/-- `loadTracksFromStorage` on a stored list. -/
def loadTracksFromStorage (urlGen : Nat → String) (sts : List StoredTrack) :
    List PMTrack :=
  loadTracksFrom urlGen 0 sts

/-- The regular-expression replace on `name` with pattern `\.[^/.]+$` and
an empty replacement, as used
by the `PlaylistManager` and `App` upload handlers: strips a final
`.ext` suffix where `ext` is nonempty and contains neither `/` nor `.`;
otherwise the name is unchanged. -/
def stripExt (s : String) : String :=
  let r := s.data.reverse
  let ext := r.takeWhile (fun c => c != '.')
  match r.dropWhile (fun c => c != '.') with
  | [] => s
  | _ :: before =>
    if ext.isEmpty || ext.contains '/' then s
    else String.mk before.reverse

/-- The track built by the `PlaylistManager` upload handler: the name is
the filename with its extension stripped; `duration` is not set. -/
def pmMkTrack (newId : String) (f : UFile) : PMTrack :=
  { id := newId, name := stripExt f.name, fileData := f.content,
    url := f.furl, duration := none, size := f.size }

/-- The tracks the `PlaylistManager` `handleFileUpload` collects in
`newTracks`: one per file whose declared type starts with `audio/`. -/
def pmNewTracksFrom (idGen : Nat → String) (i : Nat) : List UFile → List PMTrack
  | [] => []
  | f :: fs =>
    if isAudioFile f then
      pmMkTrack (idGen i) f :: pmNewTracksFrom idGen (i + 1) fs
    else
      pmNewTracksFrom idGen (i + 1) fs

/-- The `PlaylistManager` `handleFileUpload` effect on the playlist:
accepted tracks are appended (the `newTracks.length > 0` guard makes the
empty case an explicit no-op). -/
def pmHandleFileUpload (idGen : Nat → String) (files : List UFile)
    (tracks : List PMTrack) : List PMTrack :=
  let newTracks := pmNewTracksFrom idGen 0 files
  if newTracks.length > 0 then tracks ++ newTracks else tracks

/-- The `PlaylistManager` playback state: playlist, current track and
playing flag. -/
structure PMState where
  tracks : List PMTrack
  currentTrack : Option PMTrack
  isPlaying : Bool
deriving DecidableEq, Repr

/-- `playTrack` of the `PlaylistManager`: selects the track and plays. -/
def pmPlayTrack (t : PMTrack) (s : PMState) : PMState :=
  { s with currentTrack := some t, isPlaying := true }

/-- `tracks.findIndex(track => track.id === currentTrack?.id)`, with -1
rendered as `none`. -/
def pmFindIdx (s : PMState) : Option Nat :=
  match s.currentTrack with
  | none => none
  | some c => s.tracks.findIdx? (fun t => t.id == c.id)

/-- `handleTrackEnd` (the `onEnded` consumer of the `PlaylistManager`):
plays the following track when the current one is found and is not last;
otherwise only stops playing.  It never wraps to the first track. -/
def handleTrackEnd (s : PMState) : PMState :=
  match pmFindIdx s with
  | some i =>
    if hlt : i < s.tracks.length - 1 then
      pmPlayTrack (s.tracks.get ⟨i + 1, by omega⟩) s
    else
      { s with isPlaying := false }
  | none => { s with isPlaying := false }

/-!
### The `App` component of `part_000`
-/

/-- The `App` component state (`part_000`): like `PlayerState` but with
no stored queue index (`handleNext`/`handlePrevious` recompute it with
`findIndex`). -/
structure AppState where
  tracks : List AudioFile
  currentTrack : Option AudioFile
  isPlaying : Bool
  currentTime : Rat
  duration : Rat
  volume : Rat
  isMuted : Bool
  audioVolume : Rat
deriving DecidableEq, Repr

/-- The `App` initial state. -/
def appInit : AppState :=
  { tracks := [], currentTrack := none, isPlaying := false,
    currentTime := 0, duration := 0, volume := 1, isMuted := false,
    audioVolume := 1 }

/-- The `App` `handleVolumeChange`: the slider value is stored verbatim
(the slider range is 0..1), forwarded to the media element, and
`isMuted` is set exactly when it equals 0.  No clamping is performed. -/
def appHandleVolumeChange (v : Rat) (s : AppState) : AppState :=
  { s with audioVolume := v, volume := v, isMuted := decide (v = 0) }

/-- The `App` `toggleMute`: muting writes 0 to the media element;
unmuting writes `volume || 0.5`, i.e. `0.5` when the stored volume is
`0` and the stored volume otherwise.  The stored `volume` field is
never changed. -/
def appToggleMute (s : AppState) : AppState :=
  if s.isMuted then
    { s with audioVolume := if s.volume = 0 then 1/2 else s.volume,
             isMuted := false }
  else
    { s with audioVolume := 0, isMuted := true }

/-- The track built by the `App` upload handler of `part_000`: name
stripped of its extension, duration from the metadata probe. -/
def appMkTrack (newId : String) (f : UFile) : AudioFile :=
  { id := newId, name := stripExt f.name, url := f.furl, duration := f.fdur }

/-- The tracks appended by the `App` `handleFileUpload` once every
`loadedmetadata` probe of every accepted file has fired. -/
def appNewTracksFrom (idGen : Nat → String) (i : Nat) : List UFile → List AudioFile
  | [] => []
  | f :: fs =>
    if isAudioFile f then
      appMkTrack (idGen i) f :: appNewTracksFrom idGen (i + 1) fs
    else
      appNewTracksFrom idGen (i + 1) fs

/-- The net effect of the `App` `handleFileUpload` on the track list. -/
def appHandleFileUpload (idGen : Nat → String) (files : List UFile)
    (tracks : List AudioFile) : List AudioFile :=
  tracks ++ appNewTracksFrom idGen 0 files

/-- An `AudioPlayer` state with two tracks, track `a` selected at index
0 and playing, some time elapsed; used to instantiate C3/C4. -/
def apTwoTrackState : PlayerState :=
  { audioFiles := [⟨"a", "A", "ua", 10⟩, ⟨"b", "B", "ub", 20⟩],
    currentTrack := some ⟨"a", "A", "ua", 10⟩, isPlaying := true,
    currentTime := 3, duration := 10, volume := 1, isMuted := false,
    currentIndex := 0, audioVolume := 1, loads := 1 }

/-- An `AudioPlayer` state with two tracks, track `b` selected at index
1 (the last index) and playing; used to instantiate C6 at the
wrap-around position. -/
def apLastTrackState : PlayerState :=
  { audioFiles := [⟨"a", "A", "ua", 10⟩, ⟨"b", "B", "ub", 20⟩],
    currentTrack := some ⟨"b", "B", "ub", 20⟩, isPlaying := true,
    currentTime := 0, duration := 20, volume := 1, isMuted := false,
    currentIndex := 1, audioVolume := 1, loads := 2 }

/-- A `PlaylistManager` state with two tracks and the first one current
and playing. -/
def pmTwoTrackState : PMState :=
  { tracks := [⟨"a", "A", "da", "ua", none, 1⟩, ⟨"b", "B", "db", "ub", none, 1⟩],
    currentTrack := some ⟨"a", "A", "da", "ua", none, 1⟩, isPlaying := true }

/-- A `PlaylistManager` state with two tracks and the last one current
and playing. -/
def pmLastTrackState : PMState :=
  { tracks := [⟨"a", "A", "da", "ua", none, 1⟩, ⟨"b", "B", "db", "ub", none, 1⟩],
    currentTrack := some ⟨"b", "B", "db", "ub", none, 1⟩, isPlaying := true }

/-- Event trace: upload two tracks, select the first, let five seconds
of playback elapse, then delete the current track. -/
def c1TraceDelete : List Event :=
  [Event.upload [⟨"a", "A", "ua", 10⟩, ⟨"b", "B", "ub", 20⟩],
   Event.select ⟨"a", "A", "ua", 10⟩ 0,
   Event.timeupdate 5,
   Event.delete "a"]

/-- Event trace: upload four tracks, select the last (queue index 3),
delete two non-current tracks (the stored queue index is not adjusted,
so it goes stale), then press previous. -/
def c1TracePrev : List Event :=
  [Event.upload [⟨"a", "A", "ua", 10⟩, ⟨"b", "B", "ub", 20⟩,
                 ⟨"c", "C", "uc", 30⟩, ⟨"d", "D", "ud", 40⟩],
   Event.select ⟨"d", "D", "ud", 40⟩ 3,
   Event.delete "a",
   Event.delete "b",
   Event.prev]

/-!
### Generic list facts used below
-/

theorem takeLen_append {α : Type} (p q : List α) : (p ++ q).take p.length = p := by
  induction p with
  | nil => rfl
  | cons a p ih => simp [ih]

theorem dropLen_append {α : Type} (p q : List α) : (p ++ q).drop p.length = q := by
  induction p with
  | nil => rfl
  | cons a p ih => simp [ih]

/-!
### C1 — the `currentTrackId = none → idle ∧ currentTime = 0` invariant
-/

/-- Claim C1 is false as stated: after `c1TraceDelete` the current track is
cleared but `currentTime` is still 5, and after `c1TracePrev` the
current track is cleared (`audioFiles[prevIndex]` is `undefined` for the
stale index) while `isPlaying` is still `true`. -/
theorem c1_invariant_counterexample :
    ((run c1TraceDelete initState).currentTrack = none ∧
     (run c1TraceDelete initState).currentTime = 5 ∧
     ¬(run c1TraceDelete initState).currentTime = 0) ∧
    ((run c1TracePrev initState).currentTrack = none ∧
     (run c1TracePrev initState).isPlaying = true) := by
  decide

/-- Claim C1 (amended): deleting the currently playing track always clears
`currentTrack` and forces `isPlaying = false`, whatever the prior
status; but `currentTime` keeps its prior value (it is not reset to 0),
and the general invariant "no current track implies idle" does not hold
at every reachable state. -/
theorem c1_delete_current_amended (s : PlayerState) (d : String)
    (hd : currentTrackId s = some d) :
    (deleteTrack d s).currentTrack = none ∧
    (deleteTrack d s).isPlaying = false ∧
    (deleteTrack d s).currentTime = s.currentTime := by
  simp [deleteTrack, hd]

/-- Claim C1 witness: the amended theorem applied to a concrete playing
state. -/
theorem c1_delete_current_amended_witness :
    (deleteTrack "a" apTwoTrackState).currentTrack = none ∧
    (deleteTrack "a" apTwoTrackState).isPlaying = false ∧
    (deleteTrack "a" apTwoTrackState).currentTime = apTwoTrackState.currentTime :=
  c1_delete_current_amended apTwoTrackState "a" (by decide)

/-!
### C2 — persistence round trip
-/

theorem decodeDataUrl_encodeDataUrl (d : String) :
    decodeDataUrl (encodeDataUrl d) = some d := by
  unfold decodeDataUrl encodeDataUrl
  rw [show (String.mk (dataUrlTag ++ d.data)).data = dataUrlTag ++ d.data from rfl]
  rw [takeLen_append, dropLen_append]
  simp

theorem loadTracksFrom_save (urlGen : Nat → String) (i : Nat) (ts : List PMTrack) :
    (loadTracksFrom urlGen i (saveTracksToStorage ts)).map
        (fun t => (t.id, t.name, t.duration)) =
      ts.map (fun t => (t.id, t.name, t.duration)) := by
  induction ts generalizing i with
  | nil => rfl
  | cons t ts ih =>
    simp only [saveTracksToStorage, List.map_cons, loadTracksFrom,
      decodeDataUrl_encodeDataUrl, restoreTrack]
    have := ih (i + 1)
    simp only [saveTracksToStorage] at this
    simp [this]

/-- Claim C2: loading the saved form of any track list reproduces the same
ids, names and durations in the same order (only the transient object
URL and the rematerialized file differ). -/
theorem c2_save_load_round_trip (urlGen : Nat → String) (ts : List PMTrack) :
    (loadTracksFromStorage urlGen (saveTracksToStorage ts)).map
        (fun t => (t.id, t.name, t.duration)) =
      ts.map (fun t => (t.id, t.name, t.duration)) :=
  loadTracksFrom_save urlGen 0 ts

/-!
### C3 — auto-advance on the `ended` notification
-/

theorem playNext_audioFiles (s : PlayerState) :
    (playNext s).audioFiles = s.audioFiles := by
  unfold playNext
  split <;> rfl

theorem playNext_fields (s : PlayerState) (h : s.audioFiles.length ≠ 0) :
    (playNext s).isPlaying = true ∧
    (playNext s).currentIndex = (s.currentIndex + 1) % s.audioFiles.length ∧
    (playNext s).currentTrack =
      s.audioFiles.get? ((s.currentIndex + 1) % s.audioFiles.length) := by
  unfold playNext
  rw [dif_neg h]
  refine ⟨rfl, rfl, ?_⟩
  exact (List.get?_eq_get _).symm

/-- Claim C3 is false as stated: in the `PlaylistManager`, the `ended`
notification for the last track of a non-empty queue does not wrap to
the first track; `handleTrackEnd` merely stops playback and leaves the
current track as it was. -/
theorem c3_ended_counterexample :
    (handleTrackEnd pmLastTrackState).isPlaying = false ∧
    (handleTrackEnd pmLastTrackState).currentTrack =
      some ⟨"b", "B", "db", "ub", none, 1⟩ ∧
    pmLastTrackState.tracks.length = 2 ∧
    pmFindIdx pmLastTrackState = some 1 := by
  decide

/-- Claim C3 (amended): in the `AudioPlayer`, `ended` always triggers
`playNext`, advancing to the following track modulo the queue length
(so the last track wraps to the first) and playing it; in the
`PlaylistManager`, `ended` advances to the following track only when the
current one is not last, and otherwise stops playback without changing
the current track (no wrap-around). -/
theorem c3_ended_advance_amended (s : PlayerState) (ps : PMState) (i : Nat)
    (h : s.audioFiles.length ≠ 0) (hi : pmFindIdx ps = some i) :
    ((handleEnded s).isPlaying = true ∧
     (handleEnded s).currentIndex = (s.currentIndex + 1) % s.audioFiles.length ∧
     (handleEnded s).currentTrack =
       s.audioFiles.get? ((s.currentIndex + 1) % s.audioFiles.length)) ∧
    (if i < ps.tracks.length - 1 then
       (handleTrackEnd ps).currentTrack = ps.tracks.get? (i + 1) ∧
       (handleTrackEnd ps).isPlaying = true
     else
       (handleTrackEnd ps).currentTrack = ps.currentTrack ∧
       (handleTrackEnd ps).isPlaying = false) := by
  constructor
  · exact playNext_fields { s with isPlaying := false } h
  · by_cases hlt : i < ps.tracks.length - 1
    · rw [if_pos hlt]
      simp only [handleTrackEnd, hi, dif_pos hlt, pmPlayTrack]
      exact ⟨(List.get?_eq_get _).symm, trivial⟩
    · rw [if_neg hlt]
      simp only [handleTrackEnd, hi, dif_neg hlt]
      exact ⟨trivial, trivial⟩

/-- Claim C3 witness: a queue `[A(10), B(20)]` with A current in both
components; `ended` advances to B and plays it. -/
theorem c3_ended_advance_amended_witness :
    ((handleEnded apTwoTrackState).isPlaying = true ∧
     (handleEnded apTwoTrackState).currentIndex =
       (apTwoTrackState.currentIndex + 1) % apTwoTrackState.audioFiles.length ∧
     (handleEnded apTwoTrackState).currentTrack =
       apTwoTrackState.audioFiles.get?
         ((apTwoTrackState.currentIndex + 1) % apTwoTrackState.audioFiles.length)) ∧
    (if 0 < pmTwoTrackState.tracks.length - 1 then
       (handleTrackEnd pmTwoTrackState).currentTrack = pmTwoTrackState.tracks.get? 1 ∧
       (handleTrackEnd pmTwoTrackState).isPlaying = true
     else
       (handleTrackEnd pmTwoTrackState).currentTrack = pmTwoTrackState.currentTrack ∧
       (handleTrackEnd pmTwoTrackState).isPlaying = false) :=
  c3_ended_advance_amended apTwoTrackState pmTwoTrackState 0 (by decide) (by decide)

/-!
### C4 — selecting the already-current track toggles instead of reloading
-/

/-- Claim C4: `playTrack` on the id of the current track while playing is a
pause: `isPlaying` becomes false, `currentTime` is untouched, no new
media resource is loaded (`loads` unchanged) and the current track is
unchanged. -/
theorem c4_select_current_is_pause (s : PlayerState) (t : AudioFile) (i : Nat)
    (h : currentTrackId s = some t.id) (hp : s.isPlaying = true) :
    (playTrack t i s).isPlaying = false ∧
    (playTrack t i s).currentTime = s.currentTime ∧
    (playTrack t i s).loads = s.loads ∧
    (playTrack t i s).currentTrack = s.currentTrack := by
  unfold playTrack
  rw [if_pos h]
  unfold togglePlayPause
  cases hc : s.currentTrack with
  | none => simp [currentTrackId, hc] at h
  | some c => simp [hc, hp]

/-- Claim C4 witness: selecting track `a` while it is current and playing. -/
theorem c4_select_current_is_pause_witness :
    (playTrack ⟨"a", "A", "ua", 10⟩ 0 apTwoTrackState).isPlaying = false ∧
    (playTrack ⟨"a", "A", "ua", 10⟩ 0 apTwoTrackState).currentTime =
      apTwoTrackState.currentTime ∧
    (playTrack ⟨"a", "A", "ua", 10⟩ 0 apTwoTrackState).loads = apTwoTrackState.loads ∧
    (playTrack ⟨"a", "A", "ua", 10⟩ 0 apTwoTrackState).currentTrack =
      apTwoTrackState.currentTrack :=
  c4_select_current_is_pause apTwoTrackState ⟨"a", "A", "ua", 10⟩ 0 (by decide) (by decide)

/-!
### C5 — volume clamping
-/

/-- Claim C5 is false as stated: `handleVolumeChange` stores its value without
any clamping, so `setVolume(-5)` stores `-5` (not `0`) and
`setVolume(5)` stores `5` (not `1`). -/
theorem c5_volume_clamp_counterexample :
    (appHandleVolumeChange (-5) appInit).volume = -5 ∧ ¬((-5 : Rat) = 0) ∧
    (appHandleVolumeChange 5 appInit).volume = 5 ∧ ¬((5 : Rat) = 1) := by
  decide

/-- Claim C5 (amended): the stored volume is the raw slider value, unclamped
(the `AudioPlayer` variant stores `value / 100`); `muted` becomes true
exactly when the stored value equals 0 (hence it stays false for a
negative stored value). -/
theorem c5_volume_stored_unclamped_amended (v : Rat) (s : AppState) (s2 : PlayerState) :
    (appHandleVolumeChange v s).volume = v ∧
    (appHandleVolumeChange v s).audioVolume = v ∧
    ((appHandleVolumeChange v s).isMuted = true ↔ v = 0) ∧
    (handleVolumeChange v s2).volume = v / 100 ∧
    (handleVolumeChange v s2).audioVolume = v / 100 ∧
    ((handleVolumeChange v s2).isMuted = true ↔ v / 100 = 0) := by
  refine ⟨rfl, rfl, ?_, rfl, rfl, ?_⟩ <;>
    simp [appHandleVolumeChange, handleVolumeChange]

/-!
### C6 — `next()` cycles through the queue
-/

theorem playNext_iterate (s : PlayerState)
    (h0 : s.currentIndex < s.audioFiles.length)
    (hc : s.currentTrack = s.audioFiles.get? s.currentIndex) (k : Nat) :
    (playNext^[k] s).audioFiles = s.audioFiles ∧
    (playNext^[k] s).currentIndex = (s.currentIndex + k) % s.audioFiles.length ∧
    (playNext^[k] s).currentTrack =
      s.audioFiles.get? ((s.currentIndex + k) % s.audioFiles.length) := by
  induction k with
  | zero =>
    refine ⟨rfl, ?_, ?_⟩
    · simp [Nat.mod_eq_of_lt h0]
    · simp [Nat.mod_eq_of_lt h0, hc]
  | succ k ih =>
    obtain ⟨hf, hi, ht⟩ := ih
    have hlen0 : s.audioFiles.length ≠ 0 := by omega
    have hlen : (playNext^[k] s).audioFiles.length ≠ 0 := by rw [hf]; exact hlen0
    obtain ⟨_, hp2, hp3⟩ := playNext_fields (playNext^[k] s) hlen
    have hmod : ((s.currentIndex + k) % s.audioFiles.length + 1) % s.audioFiles.length
        = (s.currentIndex + (k + 1)) % s.audioFiles.length :=
      Nat.ModEq.add_right 1 (Nat.mod_modEq _ _)
    rw [Function.iterate_succ_apply']
    refine ⟨by rw [playNext_audioFiles, hf], ?_, ?_⟩
    · rw [hp2, hi, hf, hmod]
    · rw [hp3, hi, hf, hmod]

/-- Claim C6: from any valid queue position, one `playNext` advances the index
to `(i + 1) mod N`, and `N` successive `playNext`s return to the
original index and the originally selected track (wrap-around, including
the one-track queue). -/
theorem c6_next_cycles (s : PlayerState)
    (h0 : s.currentIndex < s.audioFiles.length)
    (hc : s.currentTrack = s.audioFiles.get? s.currentIndex) :
    (playNext s).currentIndex = (s.currentIndex + 1) % s.audioFiles.length ∧
    (playNext^[s.audioFiles.length] s).currentIndex = s.currentIndex ∧
    (playNext^[s.audioFiles.length] s).currentTrack = s.currentTrack := by
  have hlen : s.audioFiles.length ≠ 0 := by omega
  obtain ⟨_, hi, ht⟩ := playNext_iterate s h0 hc s.audioFiles.length
  refine ⟨(playNext_fields s hlen).2.1, ?_, ?_⟩
  · rw [hi, Nat.add_mod_right, Nat.mod_eq_of_lt h0]
  · rw [ht, Nat.add_mod_right, Nat.mod_eq_of_lt h0, hc]

/-- Claim C6 witness: a two-track queue starting at the last index (so the
first `playNext` wraps to index 0), back at track `b` after 2 steps. -/
theorem c6_next_cycles_witness :
    (playNext apLastTrackState).currentIndex =
      (apLastTrackState.currentIndex + 1) % apLastTrackState.audioFiles.length ∧
    (playNext^[apLastTrackState.audioFiles.length] apLastTrackState).currentIndex =
      apLastTrackState.currentIndex ∧
    (playNext^[apLastTrackState.audioFiles.length] apLastTrackState).currentTrack =
      apLastTrackState.currentTrack :=
  c6_next_cycles apLastTrackState (by decide) (by decide)

/-!
### C7 — mute toggling and the remembered volume
-/

/-- Claim C7 is false as stated: with stored volume `0` (a value in `[0,1]`,
reached by `setVolume(0)`, which also sets `muted`), unmuting in the
`App` variant writes `volume || 0.5 = 0.5` to the media element instead
of the remembered value `0`. -/
theorem c7_toggleMute_counterexample :
    (appHandleVolumeChange 0 appInit).volume = 0 ∧
    (appHandleVolumeChange 0 appInit).isMuted = true ∧
    (appToggleMute (appHandleVolumeChange 0 appInit)).audioVolume = 1/2 ∧
    ¬((1 : Rat)/2 = 0) := by
  refine ⟨rfl, by decide, ?_, by norm_num⟩
  simp [appToggleMute, appHandleVolumeChange, appInit]

/-- Claim C7 (amended): `toggleMute` never alters the stored volume; muting
writes 0 to the media element; unmuting restores the remembered stored
value exactly in the `AudioPlayer` variant, while the `App` variant
restores it only when it is nonzero and substitutes `0.5` when the
remembered value is `0`. -/
theorem c7_toggleMute_amended (s2 : PlayerState) (s : AppState) :
    ((toggleMute s2).volume = s2.volume ∧
     (toggleMute s2).isMuted = !s2.isMuted ∧
     (toggleMute s2).audioVolume = (if s2.isMuted then s2.volume else 0)) ∧
    ((appToggleMute s).volume = s.volume ∧
     (appToggleMute s).isMuted = !s.isMuted ∧
     (appToggleMute s).audioVolume =
       (if s.isMuted then (if s.volume = 0 then 1/2 else s.volume) else 0)) := by
  constructor
  · cases hm : s2.isMuted <;> simp [toggleMute, hm]
  · cases hm : s.isMuted <;> simp [appToggleMute, hm]

/-!
### C8 — display names of uploaded tracks
-/

theorem apNewTracksFrom_map_name (idGen : Nat → String) (i : Nat) (files : List UFile) :
    (apNewTracksFrom idGen i files).map (fun t => t.name) =
      (files.filter isAudioFile).map (fun f => f.name) := by
  induction files generalizing i with
  | nil => rfl
  | cons f fs ih =>
    by_cases hf : isAudioFile f <;>
      simp [apNewTracksFrom, hf, apMkTrack, ih]

theorem pmNewTracksFrom_map_name (idGen : Nat → String) (i : Nat) (files : List UFile) :
    (pmNewTracksFrom idGen i files).map (fun t => t.name) =
      (files.filter isAudioFile).map (fun f => stripExt f.name) := by
  induction files generalizing i with
  | nil => rfl
  | cons f fs ih =>
    by_cases hf : isAudioFile f <;>
      simp [pmNewTracksFrom, hf, pmMkTrack, ih]

theorem appNewTracksFrom_map_name (idGen : Nat → String) (i : Nat) (files : List UFile) :
    (appNewTracksFrom idGen i files).map (fun t => t.name) =
      (files.filter isAudioFile).map (fun f => stripExt f.name) := by
  induction files generalizing i with
  | nil => rfl
  | cons f fs ih =>
    by_cases hf : isAudioFile f <;>
      simp [appNewTracksFrom, hf, appMkTrack, ih]

theorem apNewTracksFrom_length (idGen : Nat → String) (i : Nat) (files : List UFile) :
    (apNewTracksFrom idGen i files).length = (files.filter isAudioFile).length := by
  have h := congrArg List.length (apNewTracksFrom_map_name idGen i files)
  simpa using h

theorem pmNewTracksFrom_length (idGen : Nat → String) (i : Nat) (files : List UFile) :
    (pmNewTracksFrom idGen i files).length = (files.filter isAudioFile).length := by
  have h := congrArg List.length (pmNewTracksFrom_map_name idGen i files)
  simpa using h

theorem appNewTracksFrom_length (idGen : Nat → String) (i : Nat) (files : List UFile) :
    (appNewTracksFrom idGen i files).length = (files.filter isAudioFile).length := by
  have h := congrArg List.length (appNewTracksFrom_map_name idGen i files)
  simpa using h

/-- Claim C8 is false as stated: the `AudioPlayer` upload handler stores the
unmodified filename, so an accepted upload named `song.mp3` yields a
track named `song.mp3`, not the extension-stripped `song`. -/
theorem c8_name_counterexample :
    ((apHandleFileUpload (fun _ => "id0")
        [⟨"song.mp3", "audio/mpeg", "u0", 10, "bytes", 5⟩] []).map
      (fun t => t.name)) = ["song.mp3"] ∧
    stripExt "song.mp3" = "song" ∧
    ¬(("song.mp3" : String) = "song") := by
  decide

/-- Claim C8 (amended): the `PlaylistManager` and `App` upload handlers name
each accepted track by the filename with its extension stripped
(the replace with pattern `\.[^/.]+$`), while the `AudioPlayer` handler keeps
the original filename unchanged, extension included. -/
theorem c8_upload_name_amended (idGen : Nat → String) (files : List UFile)
    (tracks : List AudioFile) (ptracks : List PMTrack) (atracks : List AudioFile) :
    ((apHandleFileUpload idGen files tracks).drop tracks.length).map (fun t => t.name) =
      (files.filter isAudioFile).map (fun f => f.name) ∧
    ((pmHandleFileUpload idGen files ptracks).drop ptracks.length).map (fun t => t.name) =
      (files.filter isAudioFile).map (fun f => stripExt f.name) ∧
    ((appHandleFileUpload idGen files atracks).drop atracks.length).map (fun t => t.name) =
      (files.filter isAudioFile).map (fun f => stripExt f.name) := by
  refine ⟨?_, ?_, ?_⟩
  · rw [apHandleFileUpload, dropLen_append, apNewTracksFrom_map_name]
  · simp only [pmHandleFileUpload]
    split
    · rw [dropLen_append, pmNewTracksFrom_map_name]
    · rename_i hlen
      have h0 : (files.filter isAudioFile) = [] := by
        rw [← List.length_eq_zero, ← pmNewTracksFrom_length idGen 0 files]
        omega
      rw [List.drop_length, h0]
      rfl
  · rw [appHandleFileUpload, dropLen_append, appNewTracksFrom_map_name]

/-!
### C9 — partial-success upload ingestion
-/

theorem apNewTracksFrom_map_meta (idGen : Nat → String) (i : Nat) (files : List UFile) :
    (apNewTracksFrom idGen i files).map (fun t => (t.name, t.url, t.duration)) =
      (files.filter isAudioFile).map (fun f => (f.name, f.furl, f.fdur)) := by
  induction files generalizing i with
  | nil => rfl
  | cons f fs ih =>
    by_cases hf : isAudioFile f <;>
      simp [apNewTracksFrom, hf, apMkTrack, ih]

/-- Claim C9: upload ingestion has partial-success semantics: the previously
present tracks are untouched, the registry gains exactly one new entry
per file whose declared type starts with `audio/`, and the new entries
are exactly the tracks of the accepted files in batch order — files with an
unrecognized type are skipped without affecting their siblings (the
`App` variant gains the same count). -/
theorem c9_upload_partial_success (idGen : Nat → String) (files : List UFile)
    (tracks : List AudioFile) (atracks : List AudioFile) :
    (apHandleFileUpload idGen files tracks).length =
      tracks.length + (files.filter isAudioFile).length ∧
    (apHandleFileUpload idGen files tracks).take tracks.length = tracks ∧
    ((apHandleFileUpload idGen files tracks).drop tracks.length).map
        (fun t => (t.name, t.url, t.duration)) =
      (files.filter isAudioFile).map (fun f => (f.name, f.furl, f.fdur)) ∧
    (appHandleFileUpload idGen files atracks).length =
      atracks.length + (files.filter isAudioFile).length := by
  refine ⟨?_, ?_, ?_, ?_⟩
  · rw [apHandleFileUpload]
    simp [apNewTracksFrom_length]
  · rw [apHandleFileUpload, takeLen_append]
  · rw [apHandleFileUpload, dropLen_append, apNewTracksFrom_map_meta]
  · rw [appHandleFileUpload]
    simp [appNewTracksFrom_length]

/-!
### C10 — deleting a non-current track is a pure registry removal
-/

theorem map_id_filter_ne (l : List AudioFile) (d : String)
    (hnd : (l.map (fun t => t.id)).Nodup) :
    (l.filter (fun f => f.id != d)).map (fun t => t.id) =
      (l.map (fun t => t.id)).erase d := by
  rw [hnd.erase_eq_filter d, List.filter_map]
  rfl

/-- Claim C10: deleting a track id `d` that is present but is not the id
of the current track removes exactly that entry — the id sequence is the original
with `d` erased and the length drops by one — and every playback-state
field (`currentTrack`, `isPlaying`, `currentTime`, `volume`, `isMuted`)
keeps its value. -/
theorem c10_delete_noncurrent_frame (s : PlayerState) (d : String)
    (hcur : ¬currentTrackId s = some d)
    (hmem : d ∈ s.audioFiles.map (fun t => t.id))
    (hnd : (s.audioFiles.map (fun t => t.id)).Nodup) :
    (deleteTrack d s).audioFiles.map (fun t => t.id) =
      (s.audioFiles.map (fun t => t.id)).erase d ∧
    (deleteTrack d s).audioFiles.length = s.audioFiles.length - 1 ∧
    (deleteTrack d s).currentTrack = s.currentTrack ∧
    (deleteTrack d s).isPlaying = s.isPlaying ∧
    (deleteTrack d s).currentTime = s.currentTime ∧
    (deleteTrack d s).volume = s.volume ∧
    (deleteTrack d s).isMuted = s.isMuted := by
  have hdel : deleteTrack d s =
      { s with audioFiles := s.audioFiles.filter (fun f => f.id != d) } := by
    simp [deleteTrack, hcur]
  rw [hdel]
  refine ⟨map_id_filter_ne s.audioFiles d hnd, ?_, rfl, rfl, rfl, rfl, rfl⟩
  have h1 := List.length_erase_add_one hmem
  have h2 := congrArg List.length (map_id_filter_ne s.audioFiles d hnd)
  simp only [List.length_map] at h1 h2
  show (s.audioFiles.filter (fun f => f.id != d)).length = s.audioFiles.length - 1
  omega

/-- Claim C10 witness: deleting the non-current track `b` from a two-track
state. -/
theorem c10_delete_noncurrent_frame_witness :
    (deleteTrack "b" apTwoTrackState).audioFiles.map (fun t => t.id) =
      (apTwoTrackState.audioFiles.map (fun t => t.id)).erase "b" ∧
    (deleteTrack "b" apTwoTrackState).audioFiles.length =
      apTwoTrackState.audioFiles.length - 1 ∧
    (deleteTrack "b" apTwoTrackState).currentTrack = apTwoTrackState.currentTrack ∧
    (deleteTrack "b" apTwoTrackState).isPlaying = apTwoTrackState.isPlaying ∧
    (deleteTrack "b" apTwoTrackState).currentTime = apTwoTrackState.currentTime ∧
    (deleteTrack "b" apTwoTrackState).volume = apTwoTrackState.volume ∧
    (deleteTrack "b" apTwoTrackState).isMuted = apTwoTrackState.isMuted :=
  c10_delete_noncurrent_frame apTwoTrackState "b" (by decide) (by decide) (by decide)
